import Mathlib

/-!
Verification of the zone-occupancy tracking core and the OPC-UA machine
simulator of the waffle-production monitoring repository.

The zone-monitoring scripts (`zone_detection.py`, `zone_definition_tool.py`)
are documented in the repository but their source is not shipped; those
components are modelled from the specification text (each such definition's
doc comment says so).  The OPC-UA simulator
(`NeuronEMQX/dev/opc-ua-simulator/src/index.ts`) is shipped and is embedded
directly from its source.
-/

namespace ZoneMon

/-- A 2-D point; coordinates are modelled as rationals (zone-config vertices
are integers, foot positions may be half-integers). -/
structure Pt where
  x : ℚ
  y : ℚ
  deriving DecidableEq, Repr

/-- Modelled from the spec: a zone is an identifier, a display name, a display
color and an ordered sequence of 2-D vertices. -/
structure Zone where
  zid : Nat
  name : String
  color : Nat × Nat × Nat
  points : List Pt
  deriving DecidableEq, Repr

/-- Modelled from the spec: the edge list of a polygon, each vertex paired
with its cyclic successor. -/
def polygonEdges : List Pt → List (Pt × Pt)
  | [] => []
  | p :: ps => List.zip (p :: ps) (ps ++ [p])

/-- Modelled from the spec: the ray-casting crossing test for a single edge
`(a, b)`: the horizontal ray from `p` to the right crosses the edge iff the
edge straddles `p`'s horizontal line and the intersection lies strictly to
the right of `p`. -/
def edgeCrosses (p a b : Pt) : Bool :=
  (decide (p.y < a.y) != decide (p.y < b.y)) &&
    decide (p.x < a.x + (p.y - a.y) * (b.x - a.x) / (b.y - a.y))

/-- Modelled from the spec: ray-casting point-in-polygon — walk the edges,
toggling an inside flag at every crossing (odd total ⇒ inside). -/
def containsPoly (pts : List Pt) (p : Pt) : Bool :=
  (polygonEdges pts).foldl
    (fun ins e => if edgeCrosses p e.1 e.2 then !ins else ins) false

/-- The number of polygon edges crossed by the horizontal ray from `p`. -/
def crossingCount (pts : List Pt) (p : Pt) : Nat :=
  ((polygonEdges pts).filter (fun e => edgeCrosses p e.1 e.2)).length

/-- Modelled from the spec: `contains(zoneId, point)` — look the zone up by
identifier and run the ray-casting test on its polygon. -/
def registryContains (zones : List Zone) (zid : Nat) (p : Pt) : Bool :=
  match zones.find? (fun z => z.zid == zid) with
  | some z => containsPoly z.points p
  | none => false

/-- The convex square zone with corners (0,0)-(100,0)-(100,100)-(0,100). -/
def squareZone : Zone :=
  { zid := 1, name := "Square", color := (0, 255, 0),
    points := [⟨0, 0⟩, ⟨100, 0⟩, ⟨100, 100⟩, ⟨0, 100⟩] }

/-- Modelled from the spec: one raw zone-configuration entry — id, name,
color (three 0–255 integers) and vertex list. -/
structure ZoneConfigEntry where
  zid : Nat
  name : String
  color : Nat × Nat × Nat
  points : List Pt
  deriving DecidableEq, Repr

/-- Modelled from the spec: the fatal configuration errors — a polygon with
fewer than three points, or two zones sharing an identifier. -/
inductive ConfigError where
  | tooFewPoints (zid : Nat)
  | duplicateId (zid : Nat)
  deriving DecidableEq, Repr

/-- A validated configuration entry as a zone. -/
def toZone (e : ZoneConfigEntry) : Zone :=
  { zid := e.zid, name := e.name, color := e.color, points := e.points }

/-- Modelled from the spec: validate the entries one by one, carrying the
identifiers seen so far; the first malformed entry aborts the whole load. -/
def loadAux (seen : List Nat) : List ZoneConfigEntry → Except ConfigError (List Zone)
  | [] => .ok []
  | e :: es =>
    if e.points.length < 3 then .error (.tooFewPoints e.zid)
    else if seen.contains e.zid then .error (.duplicateId e.zid)
    else
      match loadAux (seen ++ [e.zid]) es with
      | .ok zs => .ok (toZone e :: zs)
      | .error err => .error err

/-- Modelled from the spec: `load(config)` — either every configured zone is
returned, or the load fails with a `ConfigError` and no zones are loaded. -/
def load (cfg : List ZoneConfigEntry) : Except ConfigError (List Zone) :=
  loadAux [] cfg

/-- Modelled from the spec: one raw detection — bounding box
(x, y, width, height) and confidence score. -/
structure Detection where
  x : ℚ
  y : ℚ
  w : ℚ
  h : ℚ
  score : ℚ
  deriving DecidableEq, Repr

/-- Modelled from the spec: an observation — the ground-contact anchor point
plus the confidence it came with. -/
structure Observation where
  anchor : Pt
  score : ℚ
  deriving DecidableEq, Repr

/-- Modelled from the spec: the anchor ("foot position") of a bounding box is
its bottom-center, (x + width/2, y + height). -/
def footPoint (d : Detection) : Pt :=
  ⟨d.x + d.w / 2, d.y + d.h⟩

/-- Modelled from the spec: the Detection Adapter — keep exactly the
detections whose score reaches the threshold (the rest are dropped silently)
and anchor each at its foot position. -/
def adaptFrame (thr : ℚ) (dets : List Detection) : List Observation :=
  (dets.filter fun d => thr ≤ d.score).map fun d => ⟨footPoint d, d.score⟩

/-- Modelled from the spec: kind of a zone event — entry, or exit with a flag
distinguishing a timeout-confirmed exit from a forced-closure exit. -/
inductive EventKind where
  | enter
  | exit (timeout : Bool)
  deriving DecidableEq, Repr

/-- Modelled from the spec: an immutable event record — track id, zone id,
kind, and emission timestamp. -/
structure Event where
  trackId : Nat
  zoneId : Nat
  kind : EventKind
  ts : ℚ
  deriving DecidableEq, Repr

/-- Modelled from the spec: the materialized states of a (track, zone)
membership record; ABSENT memberships are not materialized, so a membership
is carried as an `Option MState` with `none` standing for ABSENT. -/
inductive MState where
  | present (entryTs lastConfirmed : ℚ)
  | pendingExit (entryTs deadline : ℚ)
  deriving DecidableEq, Repr

/-- Modelled from the spec: one frame step of the occupancy state machine for
a single (track, zone) membership.  `τ` is the pending-exit timeout, `now`
the frame timestamp, `c` the containment verdict for this frame.  Pending
deadlines are evaluated lazily against the frame timestamp; a timeout-
confirmed EXIT is stamped with the deadline itself, not the frame time. -/
def stepMembership (τ : ℚ) (tid zid : Nat) (now : ℚ) (c : Bool) :
    Option MState → Option MState × List Event
  | none =>
    if c then (some (.present now now), [⟨tid, zid, .enter, now⟩])
    else (none, [])
  | some (.present entry _last) =>
    if c then (some (.present entry now), [])
    else (some (.pendingExit entry (now + τ)), [])
  | some (.pendingExit entry d) =>
    if now < d then
      if c then (some (.present entry now), [])
      else (some (.pendingExit entry d), [])
    else
      if c then
        (some (.present now now),
          [⟨tid, zid, .exit true, d⟩, ⟨tid, zid, .enter, now⟩])
      else (none, [⟨tid, zid, .exit true, d⟩])

/-- Run the membership state machine over a sequence of
(frame timestamp, containment) samples, collecting emitted events. -/
def runMembership (τ : ℚ) (tid zid : Nat) (frames : List (ℚ × Bool))
    (st : Option MState) : Option MState × List Event :=
  match frames with
  | [] => (st, [])
  | f :: fs =>
    let r := stepMembership τ tid zid f.1 f.2 st
    let rest := runMembership τ tid zid fs r.1
    (rest.1, r.2 ++ rest.2)

/-- Modelled from the spec: a persistent track — stable id, last-seen
timestamp, last-known ground point, and its currently-active (non-ABSENT)
zone memberships keyed by zone id. -/
structure Track where
  tid : Nat
  lastSeen : ℚ
  pos : Pt
  memberships : List (Nat × MState)
  deriving DecidableEq, Repr

/-- Modelled from the spec: force-closing a track emits one EXIT per still-
open membership; forced-closure exits carry no timeout qualifier (spec §6/§8)
and are stamped with the time of the expiry check. -/
def forceClose (now : ℚ) (t : Track) : List Event :=
  t.memberships.map fun m => ⟨t.tid, m.1, .exit false, now⟩

/-- A track is expired when it has gone unmatched for longer than the
identity-expiry window `w`. -/
def isExpired (w now : ℚ) (t : Track) : Bool :=
  decide (w < now - t.lastSeen)

/-- Modelled from the spec: the expiry pass — remove every expired track,
force-closing each of its open memberships on the way out. -/
def expireTracks (w now : ℚ) (tracks : List Track) : List Track × List Event :=
  (tracks.filter fun t => !isExpired w now t,
   (tracks.filter (isExpired w now)).flatMap (forceClose now))

/-- Squared Euclidean distance (comparisons against the association radius
are made on squares, which is order-equivalent for nonnegative radii). -/
def dist2 (p q : Pt) : ℚ :=
  (p.x - q.x) ^ 2 + (p.y - q.y) ^ 2

/-- Modelled from the spec: a track is an association candidate when its foot
distance is within the association radius and its last-seen gap is below the
identity-expiry window. -/
def eligible (radius w now : ℚ) (o : Pt) (t : Track) : Bool :=
  decide (dist2 o t.pos ≤ radius ^ 2) && decide (now - t.lastSeen < w)

/-- Modelled from the spec: candidate preference — strictly smaller distance
wins, and on a distance tie the lower track id wins. -/
def better (o : Pt) (a b : Track) : Bool :=
  decide (dist2 o a.pos < dist2 o b.pos) ||
    (decide (dist2 o a.pos = dist2 o b.pos) && decide (a.tid < b.tid))

/-- Modelled from the spec: pick the best association candidate — the
deterministic lexicographic minimum by (distance, track id). -/
def pickBest (o : Pt) : List Track → Option Track
  | [] => none
  | t :: ts =>
    match pickBest o ts with
    | none => some t
    | some b => if better o t b then some t else some b

/-- Modelled from the spec: the mutable world of the tracker — the live
tracks and the next fresh (monotonically increasing) track id. -/
structure World where
  tracks : List Track
  nextId : Nat
  deriving DecidableEq, Repr

/-- Update the matched track's last-seen time and position. -/
def updateTrack (now : ℚ) (o : Pt) (tid : Nat) (ts : List Track) : List Track :=
  ts.map fun t => if t.tid = tid then { t with lastSeen := now, pos := o } else t

/-- Modelled from the spec: greedily associate one observation — the best
eligible track is refreshed, otherwise a new track is created with the next
fresh id.  The second component collects the track ids seen this frame. -/
def associateObs (radius w now : ℚ) (st : World × List Nat) (o : Observation) :
    World × List Nat :=
  match pickBest o.anchor (st.1.tracks.filter (eligible radius w now o.anchor)) with
  | some t =>
    ({ st.1 with tracks := updateTrack now o.anchor t.tid st.1.tracks },
     st.2 ++ [t.tid])
  | none =>
    ({ tracks := st.1.tracks ++
        [{ tid := st.1.nextId, lastSeen := now, pos := o.anchor, memberships := [] }],
       nextId := st.1.nextId + 1 },
     st.2 ++ [st.1.nextId])

/-- Modelled from the spec: greedy nearest-neighbor association of one
frame's observations, in order. -/
def associateFrame (radius w now : ℚ) (world : World) (obs : List Observation) :
    World × List Nat :=
  obs.foldl (associateObs radius w now) (world, [])

/-- Modelled from the spec: run the per-zone membership machines of one track
for this frame.  An unobserved track is treated exactly like one outside
every zone: its containment verdict is false everywhere. -/
def stepTrackZones (τ now : ℚ) (zones : List Zone) (observed : Bool)
    (t : Track) : Track × List Event :=
  let res := zones.foldl
    (fun (acc : List (Nat × MState) × List Event) z =>
      let cur := (t.memberships.find? fun m => m.1 == z.zid).map Prod.snd
      let c := observed && containsPoly z.points t.pos
      let r := stepMembership τ t.tid z.zid now c cur
      (match r.1 with
       | some s => acc.1 ++ [(z.zid, s)]
       | none => acc.1,
       acc.2 ++ r.2))
    ([], [])
  ({ t with memberships := res.1 }, res.2)

/-- Modelled from the spec: tunable parameters — confidence threshold,
association radius, identity-expiry window, pending-exit timeout. -/
structure Config where
  threshold : ℚ
  radius : ℚ
  expiryWindow : ℚ
  exitTimeout : ℚ
  deriving DecidableEq, Repr

/-- Modelled from the spec: one frame of the detection feed. -/
structure Frame where
  ts : ℚ
  detections : List Detection
  deriving DecidableEq, Repr

/-- Modelled from the spec: process one frame — lazy expiry pass, detection
adaptation, greedy association, then per-track per-zone membership steps.
Returns the new world and the events emitted this frame. -/
def processFrame (cfg : Config) (zones : List Zone) (st : World) (fr : Frame) :
    World × List Event :=
  let ex := expireTracks cfg.expiryWindow fr.ts st.tracks
  let assoc := associateFrame cfg.radius cfg.expiryWindow fr.ts
    { st with tracks := ex.1 } (adaptFrame cfg.threshold fr.detections)
  let res := assoc.1.tracks.foldl
    (fun (acc : List Track × List Event) t =>
      let r := stepTrackZones cfg.exitTimeout fr.ts zones
        (assoc.2.contains t.tid) t
      (acc.1 ++ [r.1], acc.2 ++ r.2))
    ([], [])
  ({ assoc.1 with tracks := res.1 }, ex.2 ++ res.2)

/-- The freshly reset tracker state. -/
def initialWorld : World :=
  { tracks := [], nextId := 1 }

/-- Modelled from the spec: run the whole pipeline over an ordered frame
sequence from a given state, concatenating the emitted events in order. -/
def runFrames (cfg : Config) (zones : List Zone) (st : World)
    (frames : List Frame) : World × List Event :=
  frames.foldl
    (fun acc fr =>
      let r := processFrame cfg zones acc.1 fr
      (r.1, acc.2 ++ r.2))
    (st, [])

/-- Modelled from the spec: the full pipeline from a freshly reset state. -/
def runPipeline (cfg : Config) (zones : List Zone) (frames : List Frame) :
    World × List Event :=
  runFrames cfg zones initialWorld frames

/-- Modelled from the spec: the verb of a log line — entries use `entered`,
timeout-confirmed exits use `exited (timeout)`, forced-closure exits use
`exited`. -/
def kindText : EventKind → String
  | .enter => "entered"
  | .exit true => "exited (timeout)"
  | .exit false => "exited"

/-- Modelled from the spec: the object label of a track. -/
def trackLabel (tid : Nat) : String :=
  "person_" ++ toString tid

/-- The display name a zone id resolves to in the log. -/
def zoneNameOf (zones : List Zone) (zid : Nat) : String :=
  match zones.find? (fun z => z.zid == zid) with
  | some z => z.name
  | none => toString zid

/-- Modelled from the spec: one log line —
`<timestamp> - Object <label> (<class>) <verb> <zone>`. -/
def formatLine (tsText label clsName zoneName : String) (k : EventKind) : String :=
  tsText ++ " - Object " ++ label ++ " (" ++ clsName ++ ") " ++
    kindText k ++ " " ++ zoneName

/-- Modelled from the spec: serialize one event, rendering its rational
timestamp with the given clock renderer. -/
def renderEvent (tsRender : ℚ → String) (zones : List Zone) (e : Event) : String :=
  formatLine (tsRender e.ts) (trackLabel e.trackId) "Person"
    (zoneNameOf zones e.zoneId) e.kind

/-- Modelled from the spec: the event log — exactly one line per event, in
emission order. -/
def renderLog (tsRender : ℚ → String) (zones : List Zone) (evs : List Event) :
    List String :=
  evs.map (renderEvent tsRender zones)

end ZoneMon

namespace OpcSim

/-- The machine state of the OPC-UA simulator
(`index.ts`, `MachineState`): a running flag, a temperature and a pressure.
JavaScript numbers are modelled as rationals. -/
structure MachineState where
  isRunning : Bool
  temperature : ℚ
  pressure : ℚ
  deriving DecidableEq, Repr

/-- The OPC-UA data types relevant to the simulator's variables
(`node-opcua`'s `DataType`, restricted to the shapes the simulator meets). -/
inductive DataType where
  | Boolean
  | Double
  | Int32
  | UtfString
  deriving DecidableEq, Repr

/-- The status codes the simulator's write handler can return. -/
inductive StatusCode where
  | Good
  | BadTypeMismatch
  deriving DecidableEq, Repr

/-- A written variant value (`node-opcua`'s `Variant.value`). -/
inductive VariantValue where
  | vBool (v : Bool)
  | vNum (v : ℚ)
  | vStr (v : String)
  deriving DecidableEq, Repr

/-- A variant: a data type together with a value (`node-opcua`'s `Variant`). -/
structure Variant where
  dataType : DataType
  value : VariantValue
  deriving DecidableEq, Repr

/-- The TypeScript `variant.value as boolean` cast, as the simulator applies
it after the data-type guard has established the value is a Boolean. -/
def asBoolean : VariantValue → Bool
  | .vBool v => v
  | .vNum _ => false
  | .vStr _ => false

/-- The `IsRunning` set handler (`index.ts` lines 110–117): a Boolean write
updates `machineState.isRunning` and returns `Good`; any other data type
returns `BadTypeMismatch` and leaves the state untouched. -/
def isRunningSet (st : MachineState) (v : Variant) : MachineState × StatusCode :=
  if v.dataType = DataType.Boolean then
    ({ st with isRunning := asBoolean v.value }, .Good)
  else
    (st, .BadTypeMismatch)

/-- One simulation tick (`index.ts` lines 162–200).  `r1` models the
`Math.random()` draw deciding the 20% running-state toggle; `tempDelta` and
`pressureDelta` model the already-scaled random deltas.  While running,
temperature is clamped above by 80.0 and pressure is clamped into
[0.5, 5.0]; while stopped, both relax toward their ambient values. -/
def simTick (st : MachineState) (r1 tempDelta pressureDelta : ℚ) : MachineState :=
  let isRunning := if r1 < 1/5 then !st.isRunning else st.isRunning
  let temperature :=
    if isRunning then min 80 (st.temperature + tempDelta + 1/5)
    else st.temperature + (22 - st.temperature) * (1/10) + tempDelta
  let pressure :=
    if isRunning then max (1/2) (min 5 (st.pressure + pressureDelta))
    else st.pressure + (1 - st.pressure) * (1/10) + pressureDelta
  { isRunning := isRunning, temperature := temperature, pressure := pressure }

end OpcSim

namespace ZoneMon

lemma decide_succ_mod_two (n : Nat) :
    decide ((n + 1) % 2 = 1) = !decide (n % 2 = 1) := by
  rcases Nat.mod_two_eq_zero_or_one n with h | h
  · have h1 : (n + 1) % 2 = 1 := by omega
    simp [h, h1]
  · have h1 : (n + 1) % 2 = 0 := by omega
    simp [h, h1]

lemma foldl_toggle_eq_xor_parity (f : Pt × Pt → Bool) (l : List (Pt × Pt))
    (b : Bool) :
    l.foldl (fun ins e => if f e then !ins else ins) b
      = xor b (decide ((l.filter f).length % 2 = 1)) := by
  induction l generalizing b with
  | nil => cases b <;> simp
  | cons e l ih =>
    by_cases hf : f e
    · simp only [List.foldl_cons, hf, if_pos, List.filter_cons_of_pos hf,
        List.length_cons, ih, decide_succ_mod_two]
      cases b <;> simp
    · simp only [List.foldl_cons, hf, if_neg, List.filter_cons_of_neg hf, ih,
        Bool.not_false]
      simp [hf]

/-- The ray-casting fold computes exactly the parity of the crossing count. -/
lemma containsPoly_eq_parity (pts : List Pt) (p : Pt) :
    containsPoly pts p = decide (crossingCount pts p % 2 = 1) := by
  simp [containsPoly, crossingCount, foldl_toggle_eq_xor_parity]

/-- While every sampled frame time stays strictly before the pending-exit
deadline, absent frames leave a PENDING_EXIT membership unchanged and emit
nothing. -/
lemma runMembership_pending_absent (τ : ℚ) (tid zid : Nat) (e d : ℚ)
    (ts : List ℚ) (hts : ∀ t ∈ ts, t < d) :
    runMembership τ tid zid (ts.map (fun t => (t, false)))
        (some (.pendingExit e d))
      = (some (.pendingExit e d), []) := by
  induction ts with
  | nil => rfl
  | cons t ts ih =>
    have ht : t < d := hts t (List.mem_cons_self t ts)
    simp only [List.map_cons, runMembership, stepMembership, ht, if_pos,
      Bool.false_eq_true, if_neg]
    simp [ih fun u hu => hts u (List.mem_cons_of_mem t hu)]

/-- Absent frames from the ABSENT (non-materialized) state change nothing
and emit nothing. -/
lemma runMembership_none_absent (τ : ℚ) (tid zid : Nat) (ts : List ℚ) :
    runMembership τ tid zid (ts.map (fun t => (t, false))) none = (none, []) := by
  induction ts with
  | nil => rfl
  | cons t ts ih =>
    simp [runMembership, stepMembership, ih]

/-- From PENDING_EXIT, a run of absent frames one of which reaches the
deadline ends ABSENT, emitting exactly one timeout-confirmed EXIT stamped
with the deadline. -/
lemma runMembership_pending_expire (τ : ℚ) (tid zid : Nat) (e d : ℚ)
    (ts : List ℚ) (hwit : ∃ t ∈ ts, d ≤ t) :
    runMembership τ tid zid (ts.map (fun t => (t, false)))
        (some (.pendingExit e d))
      = (none, [⟨tid, zid, .exit true, d⟩]) := by
  induction ts with
  | nil => simp at hwit
  | cons t ts ih =>
    by_cases ht : t < d
    · obtain ⟨u, hu, hud⟩ := hwit
      have hu' : u ∈ ts := by
        rcases List.mem_cons.mp hu with h | h
        · exact absurd (h ▸ hud) (not_le.mpr ht)
        · exact h
      simp only [List.map_cons, runMembership, stepMembership, ht, if_pos,
        Bool.false_eq_true, if_neg]
      simp [ih ⟨u, hu', hud⟩]
    · simp only [List.map_cons, runMembership, stepMembership, ht, if_neg,
        Bool.false_eq_true]
      simp [runMembership_none_absent]

/-- Membership runs compose over frame-list concatenation. -/
lemma runMembership_append (τ : ℚ) (tid zid : Nat) (fs gs : List (ℚ × Bool))
    (st : Option MState) :
    runMembership τ tid zid (fs ++ gs) st
      = ((runMembership τ tid zid gs (runMembership τ tid zid fs st).1).1,
         (runMembership τ tid zid fs st).2 ++
           (runMembership τ tid zid gs (runMembership τ tid zid fs st).1).2) := by
  induction fs generalizing st with
  | nil => simp [runMembership]
  | cons f fs ih =>
    simp only [List.cons_append, runMembership]
    simp [ih, List.append_assoc]

/-- Claim C1: A (track, zone) membership in state PRESENT that loses containment
for a span of frames all strictly before the pending-exit deadline and then
regains it returns to PRESENT with its original entry timestamp, emitting no
EXIT and no additional ENTER: the pending exit is cancelled and the original
ENTER remains the only recorded transition. -/
theorem claim1_debounce_absorbs_flicker (τ e l t1 t' : ℚ) (ts : List ℚ)
    (tid zid : Nat)
    (hts : ∀ t ∈ ts, t < t1 + τ) (ht' : t' < t1 + τ) :
    runMembership τ tid zid
        (((t1, false) :: ts.map (fun t => (t, false))) ++ [(t', true)])
        (some (.present e l))
      = (some (.present e t'), []) := by
  have h1 : stepMembership τ tid zid t1 false (some (.present e l))
      = (some (.pendingExit e (t1 + τ)), []) := by
    simp [stepMembership]
  rw [List.cons_append, runMembership]
  simp only [h1]
  rw [runMembership_append]
  rw [runMembership_pending_absent τ tid zid e (t1 + τ) ts hts]
  simp [runMembership, stepMembership, ht']

/-- Witness for C1: a concrete flicker (present at 0, absent at 1–3, present
again at 4, timeout 4) ends PRESENT with no events. -/
theorem claim1_witness :
    runMembership 4 1 1
        (((1, false) :: ([2, 3] : List ℚ).map (fun t => (t, false))) ++ [(4, true)])
        (some (.present 0 0))
      = (some (.present 0 4), []) :=
  claim1_debounce_absorbs_flicker 4 0 0 1 4 [2, 3] 1 1
    (by intro t ht; simp at ht; rcases ht with h | h <;> simp [h] <;> norm_num)
    (by norm_num)

/-- Claim C2: A membership entered at `t0` whose containment becomes false at
`t1` and stays false past the pending-exit deadline emits exactly one ENTER
followed by exactly one timeout-confirmed EXIT, and the EXIT is stamped
`t1 + τ` (first absence plus timeout), not the time of the frame that
detected the elapsed deadline. -/
theorem claim2_timeout_exit_stamped_at_deadline (τ t0 t1 : ℚ) (fs : List ℚ)
    (tid zid : Nat) (hwit : ∃ t ∈ fs, t1 + τ ≤ t) :
    runMembership τ tid zid
        ((t0, true) :: (t1, false) :: fs.map (fun t => (t, false))) none
      = (none, [⟨tid, zid, .enter, t0⟩, ⟨tid, zid, .exit true, t1 + τ⟩]) := by
  have h0 : stepMembership τ tid zid t0 true none
      = (some (.present t0 t0), [⟨tid, zid, .enter, t0⟩]) := by
    simp [stepMembership]
  have h1 : stepMembership τ tid zid t1 false (some (.present t0 t0))
      = (some (.pendingExit t0 (t1 + τ)), []) := by
    simp [stepMembership]
  rw [runMembership]
  simp only [h0]
  rw [runMembership]
  simp only [h1]
  rw [runMembership_pending_expire τ tid zid t0 (t1 + τ) fs hwit]
  simp

/-- Witness for C2: entry at 0, absent from 1 with timeout 4, checked at
frames 2 and 6 — one ENTER at 0 and one timeout EXIT stamped 5 (= 1 + 4),
although the deadline was only detected at frame time 6. -/
theorem claim2_witness :
    runMembership 4 1 1
        ((0, true) :: (1, false) :: ([2, 6] : List ℚ).map (fun t => (t, false)))
        none
      = (none, [⟨1, 1, .enter, 0⟩, ⟨1, 1, .exit true, 5⟩]) := by
  have h := claim2_timeout_exit_stamped_at_deadline 4 0 1 [2, 6] 1 1
    ⟨6, by simp, by norm_num⟩
  norm_num at h
  exact h

/-- Claim C3: Expiry of a track that outlived the identity-expiry window
removes the track and force-closes each of its open memberships with exactly
one EXIT event per membership (carrying no timeout qualifier, per §6/§8 of
the spec); a second expiry pass on the result emits nothing (idempotence),
and in any track population no expired track survives and none of its open
memberships is dropped without an EXIT event. -/
theorem claim3_expiry_force_closes (w now : ℚ) (t : Track)
    (hexp : w < now - t.lastSeen) :
    expireTracks w now [t]
        = ([], t.memberships.map fun m => ⟨t.tid, m.1, .exit false, now⟩)
    ∧ expireTracks w now (expireTracks w now [t]).1 = ([], [])
    ∧ ∀ tracks : List Track, ∀ t' ∈ tracks, isExpired w now t' = true →
        t' ∉ (expireTracks w now tracks).1
        ∧ ∀ m ∈ t'.memberships,
            (⟨t'.tid, m.1, .exit false, now⟩ : Event)
              ∈ (expireTracks w now tracks).2 := by
  have hexpb : isExpired w now t = true := by
    simp [isExpired, hexp]
  refine ⟨?_, ?_, ?_⟩
  · simp [expireTracks, hexpb, forceClose]
  · simp [expireTracks, hexpb]
  · intro tracks t' ht' hexp'
    constructor
    · intro hmem
      rcases List.mem_filter.mp hmem with ⟨_, hkeep⟩
      simp [hexp'] at hkeep
    · intro m hm
      refine List.mem_flatMap.mpr ⟨t', List.mem_filter.mpr ⟨ht', hexp'⟩, ?_⟩
      exact List.mem_map.mpr ⟨m, hm, rfl⟩

/-- Witness for C3: a concrete track with one open membership, expiry window
5, checked at time 10 having last been seen at 0. -/
theorem claim3_witness :
    expireTracks 5 10 [⟨7, 0, ⟨0, 0⟩, [(1, .present 0 0)]⟩]
        = ([], [⟨7, 1, .exit false, 10⟩])
    ∧ expireTracks 5 10
        (expireTracks 5 10 [⟨7, 0, ⟨0, 0⟩, [(1, .present 0 0)]⟩]).1 = ([], []) := by
  have h := claim3_expiry_force_closes 5 10 ⟨7, 0, ⟨0, 0⟩, [(1, .present 0 0)]⟩
    (by norm_num)
  exact ⟨h.1, h.2.1⟩

/-- Claim C4: The point-in-polygon test returns true exactly when the
horizontal ray from the query point crosses an odd number of polygon edges;
for the convex square zone (0,0)-(100,0)-(100,100)-(0,100), `contains`
answers true at (50,50) and false at (150,50). -/
theorem claim4_ray_casting_parity :
    (∀ (pts : List Pt) (p : Pt),
        containsPoly pts p = true ↔ crossingCount pts p % 2 = 1)
    ∧ registryContains [squareZone] 1 ⟨50, 50⟩ = true
    ∧ registryContains [squareZone] 1 ⟨150, 50⟩ = false := by
  refine ⟨?_, ?_, ?_⟩
  · intro pts p
    rw [containsPoly_eq_parity]
    simp
  · simp only [registryContains, squareZone, List.find?]
    norm_num [containsPoly, polygonEdges, edgeCrosses, List.foldl]
  · simp only [registryContains, squareZone, List.find?]
    norm_num [containsPoly, polygonEdges, edgeCrosses, List.foldl]

/-- Claim C5: The Detection Adapter returns exactly the detections whose score
reaches the confidence threshold — dropped detections are simply absent, not
errors — and every produced observation is anchored at the bottom-center of
its bounding box, (x + width/2, y + height). -/
theorem claim5_adapter_threshold_and_anchor (thr : ℚ) (dets : List Detection) :
    (∀ o : Observation, o ∈ adaptFrame thr dets ↔
        ∃ d ∈ dets, thr ≤ d.score ∧ o = ⟨⟨d.x + d.w / 2, d.y + d.h⟩, d.score⟩)
    ∧ (adaptFrame thr dets).length
        = (dets.filter fun d => thr ≤ d.score).length := by
  constructor
  · intro o
    constructor
    · intro ho
      rcases List.mem_map.mp ho with ⟨d, hd, rfl⟩
      rcases List.mem_filter.mp hd with ⟨hmem, hs⟩
      exact ⟨d, hmem, by simpa using hs, rfl⟩
    · rintro ⟨d, hmem, hs, rfl⟩
      exact List.mem_map.mpr
        ⟨d, List.mem_filter.mpr ⟨hmem, by simpa using hs⟩, rfl⟩
  · simp [adaptFrame]

/-- Claim C6: Every event is serialized as exactly one log line
`<timestamp> - Object <label> (<class>) <verb> <zone>`: ENTER events render
`entered <zone>`, timeout-confirmed exits render `exited (timeout) <zone>`,
forced-closure exits render `exited <zone>` with no timeout qualifier. -/
theorem claim6_log_line_format :
    (∀ tsText label clsName zn : String,
      formatLine tsText label clsName zn .enter
          = tsText ++ " - Object " ++ label ++ " (" ++ clsName ++ ") entered " ++ zn
        ∧ formatLine tsText label clsName zn (.exit true)
          = tsText ++ " - Object " ++ label ++ " (" ++ clsName
              ++ ") exited (timeout) " ++ zn
        ∧ formatLine tsText label clsName zn (.exit false)
          = tsText ++ " - Object " ++ label ++ " (" ++ clsName ++ ") exited " ++ zn)
    ∧ ∀ (tsRender : ℚ → String) (zones : List Zone) (evs : List Event),
        (renderLog tsRender zones evs).length = evs.length := by
  refine ⟨fun tsText label clsName zn => ⟨?_, ?_, ?_⟩, ?_⟩
  · have hlit : (") " : String) ++ "entered" ++ " " = ") entered " := rfl
    have htail : (") " : String) ++ ("entered" ++ (" " ++ zn))
        = ") entered " ++ zn := by
      rw [← String.append_assoc, ← String.append_assoc, hlit]
    simp only [formatLine, kindText, String.append_assoc, htail]
  · have hlit : (") " : String) ++ "exited (timeout)" ++ " "
        = ") exited (timeout) " := rfl
    have htail : (") " : String) ++ ("exited (timeout)" ++ (" " ++ zn))
        = ") exited (timeout) " ++ zn := by
      rw [← String.append_assoc, ← String.append_assoc, hlit]
    simp only [formatLine, kindText, String.append_assoc, htail]
  · have hlit : (") " : String) ++ "exited" ++ " " = ") exited " := rfl
    have htail : (") " : String) ++ ("exited" ++ (" " ++ zn))
        = ") exited " ++ zn := by
      rw [← String.append_assoc, ← String.append_assoc, hlit]
    simp only [formatLine, kindText, String.append_assoc, htail]
  · intro tsRender zones evs
    simp [renderLog]

/-- On success, `loadAux` returns every configured zone, in order. -/
lemma loadAux_ok_val (cfg : List ZoneConfigEntry) :
    ∀ (seen : List Nat) (zs : List Zone),
      loadAux seen cfg = .ok zs → zs = cfg.map toZone := by
  induction cfg with
  | nil =>
    intro seen zs h
    simp [loadAux] at h
    simp [h]
  | cons e es ih =>
    intro seen zs h
    by_cases h3 : e.points.length < 3
    · simp [loadAux, h3] at h
    · by_cases hdup : e.zid ∈ seen
      · simp [loadAux, h3, hdup] at h
      · cases hrec : loadAux (seen ++ [e.zid]) es with
        | ok zs' =>
          simp [loadAux, h3, hdup, hrec] at h
          simp [← h, ih (seen ++ [e.zid]) zs' hrec]
        | error err =>
          simp [loadAux, h3, hdup, hrec] at h

/-- `loadAux` succeeds exactly when every polygon has at least three points
and the zone identifiers are pairwise distinct and avoid the ones already
seen. -/
lemma loadAux_isOk_iff (cfg : List ZoneConfigEntry) :
    ∀ seen : List Nat,
      (loadAux seen cfg).isOk = true ↔
        (∀ e ∈ cfg, 3 ≤ e.points.length)
          ∧ (cfg.map ZoneConfigEntry.zid).Nodup
          ∧ ∀ e ∈ cfg, e.zid ∉ seen := by
  induction cfg with
  | nil => intro seen; simp [loadAux, Except.isOk, Except.toBool]
  | cons e es ih =>
    intro seen
    by_cases h3 : e.points.length < 3
    · simp only [loadAux, h3, if_pos]
      constructor
      · intro h; simp [Except.isOk, Except.toBool] at h
      · rintro ⟨hall, -, -⟩
        exact absurd (hall e (List.mem_cons_self e es)) (by omega)
    · by_cases hdup : seen.contains e.zid
      · simp only [loadAux, h3, if_neg, hdup, if_pos, not_false_iff]
        constructor
        · intro h; simp [Except.isOk, Except.toBool] at h
        · rintro ⟨-, -, hseen⟩
          exact absurd (List.mem_of_elem_eq_true hdup)
            (hseen e (List.mem_cons_self e es))
      · have hstep : (loadAux seen (e :: es)).isOk
            = (loadAux (seen ++ [e.zid]) es).isOk := by
          simp only [loadAux, h3, if_neg, hdup, not_false_iff]
          cases loadAux (seen ++ [e.zid]) es <;> rfl
        rw [hstep, ih (seen ++ [e.zid])]
        have hzid : e.zid ∉ seen := fun hc => hdup (List.elem_eq_true_of_mem hc)
        constructor
        · rintro ⟨hpts, hnd, hsn⟩
          refine ⟨?_, ?_, ?_⟩
          · intro e' he'
            rcases List.mem_cons.mp he' with rfl | he'
            · omega
            · exact hpts e' he'
          · refine List.nodup_cons.mpr ⟨?_, hnd⟩
            intro hc
            rcases List.mem_map.mp hc with ⟨e', he', hzz⟩
            have := hsn e' he'
            simp [List.mem_append, hzz] at this
          · intro e' he'
            rcases List.mem_cons.mp he' with rfl | he'
            · exact hzid
            · intro hc
              exact (hsn e' he') (List.mem_append.mpr (Or.inl hc))
        · rintro ⟨hpts, hnd, hsn⟩
          have hnd' := List.nodup_cons.mp hnd
          refine ⟨?_, hnd'.2, ?_⟩
          · intro e' he'
            exact hpts e' (List.mem_cons_of_mem e he')
          · intro e' he'
            rw [List.mem_append]
            rintro (hc | hc)
            · exact (hsn e' (List.mem_cons_of_mem e he')) hc
            · simp at hc
              exact hnd'.1 (List.mem_map.mpr ⟨e', he', hc⟩)

/-- Claim C7: Zone-configuration loading is all-or-nothing: it succeeds exactly
when every polygon has at least three points and no two zones share an
identifier — otherwise it fails with a `ConfigError` and no zones are
loaded — and on success it returns all configured zones. -/
theorem claim7_load_all_or_nothing (cfg : List ZoneConfigEntry) :
    ((load cfg).isOk = true ↔
      (∀ e ∈ cfg, 3 ≤ e.points.length)
        ∧ (cfg.map ZoneConfigEntry.zid).Nodup)
    ∧ ∀ zs, load cfg = .ok zs → zs = cfg.map toZone := by
  constructor
  · rw [load, loadAux_isOk_iff]
    simp
  · intro zs h
    exact loadAux_ok_val cfg [] zs h

/-- Witness for C7: a well-formed single-zone configuration loads, and its
result is the full configured zone list. -/
theorem claim7_witness :
    (load [⟨1, "A", (0, 0, 0), [⟨0, 0⟩, ⟨1, 0⟩, ⟨0, 1⟩]⟩]).isOk = true
    ∧ ([⟨1, "A", (0, 0, 0), [⟨0, 0⟩, ⟨1, 0⟩, ⟨0, 1⟩]⟩] : List Zone)
        = ([⟨1, "A", (0, 0, 0), [⟨0, 0⟩, ⟨1, 0⟩, ⟨0, 1⟩]⟩] :
            List ZoneConfigEntry).map toZone := by
  constructor
  · exact (claim7_load_all_or_nothing _).1.mpr
      ⟨by intro e he; simp at he; subst he; simp, by simp⟩
  · exact (claim7_load_all_or_nothing
      [⟨1, "A", (0, 0, 0), [⟨0, 0⟩, ⟨1, 0⟩, ⟨0, 1⟩]⟩]).2 _ rfl

/-- `pickBest` returns a member of the candidate list that is lexicographically
minimal by (squared distance, track id): smaller distance wins, and on a
distance tie the smaller id wins. -/
lemma pickBest_lexmin (o : Pt) (ts : List Track) :
    ∀ t : Track, pickBest o ts = some t →
      t ∈ ts ∧ ∀ t' ∈ ts,
        dist2 o t.pos < dist2 o t'.pos ∨
          (dist2 o t.pos = dist2 o t'.pos ∧ t.tid ≤ t'.tid) := by
  induction ts with
  | nil => intro t h; simp [pickBest] at h
  | cons a ts ih =>
    intro t h
    rw [pickBest] at h
    cases hrec : pickBest o ts with
    | none =>
      rw [hrec] at h
      injection h with h
      subst h
      have hts : ts = [] := by
        cases ts with
        | nil => rfl
        | cons b ts2 =>
          rw [pickBest] at hrec
          cases h2 : pickBest o ts2 with
          | none => rw [h2] at hrec; exact absurd hrec (by simp)
          | some c =>
            rw [h2] at hrec
            by_cases hb : better o b c <;> simp [hb] at hrec
      subst hts
      refine ⟨List.mem_singleton.mpr rfl, ?_⟩
      intro t' ht'
      rcases List.mem_singleton.mp ht' with rfl
      exact Or.inr ⟨rfl, le_refl _⟩
    | some b =>
      rw [hrec] at h
      obtain ⟨hbmem, hbmin⟩ := ih b hrec
      by_cases hab : better o a b
      · simp only [hab, if_pos, Option.some.injEq] at h
        subst h
        have hab' : dist2 o a.pos < dist2 o b.pos ∨
            (dist2 o a.pos = dist2 o b.pos ∧ a.tid < b.tid) := by
          simpa [better] using hab
        refine ⟨List.mem_cons_self a ts, ?_⟩
        intro t' ht'
        rcases List.mem_cons.mp ht' with rfl | ht'
        · exact Or.inr ⟨rfl, le_refl _⟩
        · rcases hbmin t' ht' with h2 | ⟨he2, ht2⟩
          · rcases hab' with h1 | ⟨he1, _⟩
            · exact Or.inl (lt_trans h1 h2)
            · exact Or.inl (he1 ▸ h2)
          · rcases hab' with h1 | ⟨he1, ht1⟩
            · exact Or.inl (he2 ▸ h1)
            · exact Or.inr ⟨he1.trans he2, le_trans (le_of_lt ht1) ht2⟩
      · simp [hab] at h
        subst h
        have hab' : ¬(dist2 o a.pos < dist2 o b.pos) ∧
            (dist2 o a.pos = dist2 o b.pos → ¬(a.tid < b.tid)) := by
          constructor
          · intro hc; exact hab (by simp [better, hc])
          · intro he hc; exact hab (by simp [better, he, hc])
        refine ⟨List.mem_cons_of_mem a hbmem, ?_⟩
        intro t' ht'
        rcases List.mem_cons.mp ht' with rfl | ht'
        · rcases lt_or_eq_of_le (not_lt.mp hab'.1) with h1 | h1
          · exact Or.inl h1
          · exact Or.inr ⟨h1, not_lt.mp (hab'.2 h1.symm)⟩
        · exact hbmin t' ht'

/-- Claim C8: The pipeline is deterministic: equal ordered frame sequences from
the freshly reset state produce equal event logs, and the identity
association resolves each observation to a candidate that is nearest by
Euclidean (squared) foot distance, ties broken first by smaller distance and
then by lower existing track id. -/
theorem claim8_deterministic_pipeline (cfg : Config) (zones : List Zone) :
    (∀ frames₁ frames₂ : List Frame, frames₁ = frames₂ →
        (runPipeline cfg zones frames₁).2 = (runPipeline cfg zones frames₂).2)
    ∧ ∀ (o : Pt) (ts : List Track) (t : Track), pickBest o ts = some t →
        t ∈ ts ∧ ∀ t' ∈ ts,
          dist2 o t.pos < dist2 o t'.pos ∨
            (dist2 o t.pos = dist2 o t'.pos ∧ t.tid ≤ t'.tid) :=
  ⟨fun _ _ h => h ▸ rfl, fun o ts t h => pickBest_lexmin o ts t h⟩

/-- Witness for C8: the empty frame sequence reproduces its own log, and a
singleton candidate list is resolved to that candidate. -/
theorem claim8_witness :
    (runPipeline ⟨1/2, 50, 5, 4⟩ [squareZone] []).2
        = (runPipeline ⟨1/2, 50, 5, 4⟩ [squareZone] []).2
    ∧ (⟨3, 0, ⟨0, 0⟩, []⟩ : Track) ∈ [(⟨3, 0, ⟨0, 0⟩, []⟩ : Track)] := by
  have h := claim8_deterministic_pipeline ⟨1/2, 50, 5, 4⟩ [squareZone]
  exact ⟨h.1 [] [] rfl, (h.2 ⟨0, 0⟩ [⟨3, 0, ⟨0, 0⟩, []⟩] ⟨3, 0, ⟨0, 0⟩, []⟩ rfl).1⟩

end ZoneMon

namespace OpcSim

/-- Claim C9: The `IsRunning` set handler accepts a write and updates
`machineState.isRunning` with status `Good` exactly when the written
variant's data type is Boolean; any other data type yields
`BadTypeMismatch` and leaves `machineState.isRunning` unchanged. -/
theorem claim9_isRunning_write_guard (st : MachineState) (v : Variant) :
    (v.dataType = DataType.Boolean →
      isRunningSet st v = ({ st with isRunning := asBoolean v.value }, .Good))
    ∧ (v.dataType ≠ DataType.Boolean →
      isRunningSet st v = (st, .BadTypeMismatch)) := by
  constructor
  · intro h
    simp [isRunningSet, h]
  · intro h
    simp [isRunningSet, h]

/-- Witness for C9: a Boolean write flips the flag with `Good`; a Double
write is rejected with `BadTypeMismatch` and the state is untouched. -/
theorem claim9_witness :
    isRunningSet ⟨false, 22, 1⟩ ⟨.Boolean, .vBool true⟩ = (⟨true, 22, 1⟩, .Good)
    ∧ isRunningSet ⟨false, 22, 1⟩ ⟨.Double, .vNum 3⟩
        = (⟨false, 22, 1⟩, .BadTypeMismatch) := by
  constructor
  · have h := (claim9_isRunning_write_guard ⟨false, 22, 1⟩
      ⟨.Boolean, .vBool true⟩).1 rfl
    simpa [asBoolean] using h
  · exact (claim9_isRunning_write_guard ⟨false, 22, 1⟩ ⟨.Double, .vNum 3⟩).2
      (by simp)

/-- Claim C10: Any simulation tick whose effective running flag is true keeps
the state bounded whatever the random deltas: the updated temperature never
exceeds 80.0, and the updated pressure stays within [0.5, 5.0] when it
started in that range. -/
theorem claim10_running_tick_bounded (st : MachineState) (r1 td pd : ℚ)
    (hrun : (simTick st r1 td pd).isRunning = true)
    (hlo : 1/2 ≤ st.pressure) (hhi : st.pressure ≤ 5) :
    (simTick st r1 td pd).temperature ≤ 80
    ∧ 1/2 ≤ (simTick st r1 td pd).pressure
    ∧ (simTick st r1 td pd).pressure ≤ 5 := by
  simp only [simTick] at hrun ⊢
  rw [hrun]
  simp only [if_pos]
  refine ⟨min_le_left _ _, le_max_left _ _, ?_⟩
  exact max_le (by norm_num) (min_le_left _ _)

/-- Witness for C10: a concrete running tick with zero deltas stays within
the bounds. -/
theorem claim10_witness :
    (simTick ⟨true, 22, 1⟩ 1 0 0).temperature ≤ 80
    ∧ 1/2 ≤ (simTick ⟨true, 22, 1⟩ 1 0 0).pressure
    ∧ (simTick ⟨true, 22, 1⟩ 1 0 0).pressure ≤ 5 :=
  claim10_running_tick_bounded ⟨true, 22, 1⟩ 1 0 0
    (by norm_num [simTick]) (by norm_num) (by norm_num)

end OpcSim
